import Mathlib

/-!
Verification of the offline-first synchronization layer of the CMM
maintenance-tracking application: the durable mutation queue and the
background replay engine (`processSyncQueue` in `sw.js`), the
cache-through read path and offline write path (`services/api.ts`),
the durable store (`services/db.ts`) and the partial region merge
(`syncRegionData`), shallowly embedded as pure Lean functions.
-/

namespace CMM

/-- JSON-like values as stored in the local durable store and sent as
request bodies (`body: any` in the TypeScript source). Objects are
ordered field lists; numbers are modelled as integers. -/
inductive Json : Type where
  | null : Json
  | bool (b : Bool) : Json
  | num (n : Int) : Json
  | str (s : String) : Json
  | arr (elems : List Json) : Json
  | obj (fields : List (String × Json)) : Json

/-- JavaScript truthiness of a value, as tested by `if (cachedData)` and
`body.id || ...` in `api.ts`. Absence (`undefined`) is handled at use
sites via `Option`. -/
def Json.truthy : Json → Bool
  | .null => false
  | .bool b => b
  | .num n => n != 0
  | .str s => s != ""
  | .arr _ => true
  | .obj _ => true

/-- One queued mutation as stored in the `sync-queue` object store
(`SyncRecord` in `db.ts`): auto-increment primary key `id`, the request
data, and the `Date.now()` timestamp taken at enqueue time. -/
structure SyncRecord : Type where
  id : Nat
  url : String
  method : String
  body : Json
  headers : List (String × String)
  timestamp : Nat

/-- Outcome of the service worker's `fetch` of one queued request:
an HTTP response with the given status, or a thrown network error. -/
inductive FetchOutcome : Type where
  | resp (status : Nat) : FetchOutcome
  | netErr : FetchOutcome

/-- `Response.ok` of the Fetch API: status in the inclusive range 200–299. -/
def respOk (status : Nat) : Bool := decide (200 ≤ status ∧ status ≤ 299)

/-- Whether the outcome is a 2xx response (`response.ok` after a fetch
that did not throw). -/
def FetchOutcome.isOk : FetchOutcome → Bool
  | .resp s => respOk s
  | .netErr => false

/-- Whether the replay loop moves past a request with this outcome
without breaking or returning: any response that is not a 4xx
(2xx deletes and continues; other statuses just continue). -/
def FetchOutcome.proceeds : FetchOutcome → Bool
  | .resp s => !(decide (400 ≤ s ∧ s < 500))
  | .netErr => false

/-- Result of the `for (const req of requests)` loop in
`processSyncQueue`: the final contents of the `sync-queue` store, the
requests for which `fetch` was invoked in invocation order, and whether
the loop was left through the `return` in the `catch` block. -/
structure LoopOut : Type where
  db : List SyncRecord
  sent : List SyncRecord
  early : Bool

/-- Observable result of one replay pass: the remaining queue, the
requests fetched in order, and whether `SYNC_COMPLETE` was broadcast. -/
structure PassOut : Type where
  queue : List SyncRecord
  sent : List SyncRecord
  synced : Bool

/-- Store-deletion predicate: keep the records whose primary key is not
`i` (`db.delete('sync-queue', req.id)` removes the record keyed `i`). -/
def neId (i : Nat) (d : SyncRecord) : Bool := decide (d.id ≠ i)

/-- The replay loop of `processSyncQueue` (`sw.js`). First list: the
requests still to process (snapshot from `getAllFromIndex`); second: the
current store contents. A 2xx deletes the request from the store and
continues; a 4xx breaks out of the loop; any other response continues
without deleting; a thrown fetch returns from the whole function. -/
def syncLoop (f : SyncRecord → FetchOutcome) :
    List SyncRecord → List SyncRecord → LoopOut
  | [], db => ⟨db, [], false⟩
  | req :: rest, db =>
    match f req with
    | .netErr => ⟨db, [req], true⟩
    | .resp status =>
      if respOk status then
        let out := syncLoop f rest (db.filter (neId req.id))
        ⟨out.db, req :: out.sent, out.early⟩
      else if 400 ≤ status ∧ status < 500 then
        ⟨db, [req], false⟩
      else
        let out := syncLoop f rest db
        ⟨out.db, req :: out.sent, out.early⟩

/-- IndexedDB `timestamp` index order: ascending timestamp, ties broken
by ascending primary key. -/
def tsLe (a b : SyncRecord) : Prop :=
  a.timestamp < b.timestamp ∨ (a.timestamp = b.timestamp ∧ a.id ≤ b.id)

instance tsLeDec : DecidableRel tsLe := fun a b => by
  unfold tsLe; infer_instance

/-- Insert a record into a list sorted by `tsLe` (stable). -/
def insertTs (r : SyncRecord) : List SyncRecord → List SyncRecord
  | [] => [r]
  | x :: xs => if tsLe r x then r :: x :: xs else x :: insertTs r xs

/-- `db.getAllFromIndex('sync-queue', 'timestamp')`: the queue contents
sorted in `timestamp`-index order (stable insertion sort). -/
def getAllFromIndex : List SyncRecord → List SyncRecord
  | [] => []
  | x :: xs => insertTs x (getAllFromIndex xs)

/-- `processSyncQueue` from `sw.js`, as a function of the fetch oracle
`f` (the pattern of server responses) and the queue contents: read the
queue in index order, run the replay loop, then count the remaining
entries and broadcast `SYNC_COMPLETE` iff the count is zero. The
`return` on a network error skips that final check, so `synced` is
false there. -/
def processSyncQueue (f : SyncRecord → FetchOutcome) (db : List SyncRecord) : PassOut :=
  let out := syncLoop f (getAllFromIndex db) db
  ⟨out.db, out.sent, !out.early && out.db.isEmpty⟩

/-- Well-formed `sync-queue` contents, as produced by enqueuing through
`queueRequest` (auto-increment ids, `Date.now()` timestamps): ids
strictly increase in store order and timestamps never decrease. -/
def Wf (db : List SyncRecord) : Prop :=
  db.Pairwise (fun a b => a.id < b.id ∧ a.timestamp ≤ b.timestamp)

/-- Net effect on the store of deleting, in order, the ids of `reqs`. -/
def deleteIds (db reqs : List SyncRecord) : List SyncRecord :=
  reqs.foldl (fun d r => d.filter (neId r.id)) db

theorem insertTs_front (r : SyncRecord) (l : List SyncRecord)
    (h : ∀ y ∈ l, tsLe r y) : insertTs r l = r :: l := by
  cases l with
  | nil => rfl
  | cons x xs => simp [insertTs, h x (by simp)]

theorem getAllFromIndex_sorted (db : List SyncRecord)
    (h : db.Pairwise tsLe) : getAllFromIndex db = db := by
  induction db with
  | nil => rfl
  | cons x xs ih =>
    rw [getAllFromIndex, ih (List.Pairwise.of_cons h)]
    exact insertTs_front x xs (List.pairwise_cons.mp h).1

theorem Wf.pairwise_tsLe {db : List SyncRecord} (h : Wf db) : db.Pairwise tsLe :=
  h.imp (fun hab => by unfold tsLe; omega)

theorem Wf.sorted {db : List SyncRecord} (h : Wf db) : getAllFromIndex db = db :=
  getAllFromIndex_sorted db h.pairwise_tsLe

theorem Wf.nodup_ids {db : List SyncRecord} (h : Wf db) :
    (db.map SyncRecord.id).Nodup := by
  have hp : db.Pairwise (fun a b => SyncRecord.id a ≠ SyncRecord.id b) :=
    h.imp (fun hab => by omega)
  exact List.pairwise_map.mpr hp

theorem deleteIds_nil (db : List SyncRecord) : deleteIds db [] = db := rfl

theorem deleteIds_cons (db : List SyncRecord) (r : SyncRecord) (l : List SyncRecord) :
    deleteIds db (r :: l) = deleteIds (db.filter (neId r.id)) l := rfl

theorem deleteIds_eq_filter :
    ∀ (reqs db : List SyncRecord),
      deleteIds db reqs = db.filter (fun x => decide (∀ r ∈ reqs, x.id ≠ r.id))
  | [], db => by simp [deleteIds]
  | req :: rest, db => by
    rw [deleteIds_cons, deleteIds_eq_filter rest, List.filter_filter]
    refine List.filter_congr (fun x _ => ?_)
    simp only [neId, List.forall_mem_cons, Bool.decide_and, Bool.and_comm]

theorem deleteIds_self (q : List SyncRecord) : deleteIds q q = [] := by
  rw [deleteIds_eq_filter]
  refine List.filter_eq_nil_iff.mpr (fun x hx => ?_)
  simp only [decide_eq_true_eq]
  intro hall
  exact hall x hx rfl

/-- In a well-formed queue split as `pre ++ suffix`, deleting the ids of
any sublist of `pre` leaves `suffix` untouched at the end. -/
theorem deleteIds_append_of_wf (pre suffix rem : List SyncRecord)
    (hwf : Wf (pre ++ suffix)) (hrem : ∀ r ∈ rem, r ∈ pre) :
    deleteIds (pre ++ suffix) rem =
      pre.filter (fun x => decide (∀ r ∈ rem, x.id ≠ r.id)) ++ suffix := by
  rw [deleteIds_eq_filter, List.filter_append]
  congr 1
  refine List.filter_eq_self.mpr (fun x hx => ?_)
  simp only [decide_eq_true_eq]
  intro r hr
  have hlt : r.id < x.id := by
    have := (List.pairwise_append.mp hwf).2.2 r (hrem r hr) x hx
    omega
  omega

theorem syncLoop_all_ok (f : SyncRecord → FetchOutcome) :
    ∀ (reqs db : List SyncRecord), (∀ r ∈ reqs, (f r).isOk = true) →
      syncLoop f reqs db = ⟨deleteIds db reqs, reqs, false⟩
  | [], db, _ => by simp [syncLoop, deleteIds]
  | req :: rest, db, h => by
    have hreq : (f req).isOk = true := h req (by simp)
    cases hf : f req with
    | netErr => rw [hf] at hreq; simp [FetchOutcome.isOk] at hreq
    | resp s =>
      have hs : respOk s = true := by rw [hf] at hreq; exact hreq
      have ih := syncLoop_all_ok f rest (db.filter (neId req.id))
        (fun r hr => h r (by simp [hr]))
      simp [syncLoop, hf, hs, ih, deleteIds_cons]

theorem syncLoop_break_4xx (f : SyncRecord → FetchOutcome) (mK : SyncRecord) (s : Nat)
    (hmK : f mK = .resp s) (h400 : 400 ≤ s) (h500 : s < 500) :
    ∀ (pre : List SyncRecord), ∀ (post db : List SyncRecord),
      (∀ r ∈ pre, (f r).isOk = true) →
      syncLoop f (pre ++ mK :: post) db = ⟨deleteIds db pre, pre ++ [mK], false⟩
  | [], post, db, _ => by
    have hnotok : respOk s = false := by
      simp only [respOk, decide_eq_false_iff_not]; omega
    simp [syncLoop, hmK, hnotok, h400, h500, deleteIds]
  | req :: pre, post, db, h => by
    have hreq : (f req).isOk = true := h req (by simp)
    cases hf : f req with
    | netErr => rw [hf] at hreq; simp [FetchOutcome.isOk] at hreq
    | resp t =>
      have ht : respOk t = true := by rw [hf] at hreq; exact hreq
      have ih := syncLoop_break_4xx f mK s hmK h400 h500 pre post
        (db.filter (neId req.id)) (fun r hr => h r (by simp [hr]))
      simp [syncLoop, hf, ht, ih, deleteIds_cons]

theorem syncLoop_stop_netErr (f : SyncRecord → FetchOutcome) (mK : SyncRecord)
    (hmK : f mK = .netErr) :
    ∀ (pre : List SyncRecord), ∀ (post db : List SyncRecord),
      (∀ r ∈ pre, (f r).proceeds = true) →
      syncLoop f (pre ++ mK :: post) db =
        ⟨deleteIds db (pre.filter (fun r => (f r).isOk)), pre ++ [mK], true⟩
  | [], post, db, _ => by simp [syncLoop, hmK, deleteIds]
  | req :: pre, post, db, h => by
    have hreq : (f req).proceeds = true := h req (by simp)
    cases hf : f req with
    | netErr => rw [hf] at hreq; simp [FetchOutcome.proceeds] at hreq
    | resp t =>
      rw [hf] at hreq
      have hor : t < 400 ∨ 500 ≤ t := by
        simpa [FetchOutcome.proceeds] using hreq
      have hnot45 : ¬(400 ≤ t ∧ t < 500) := by omega
      have ih := fun db2 => syncLoop_stop_netErr f mK hmK pre post db2
        (fun r hr => h r (by simp [hr]))
      cases ht : respOk t with
      | true =>
        have hok : (FetchOutcome.resp t).isOk = true := ht
        simp [syncLoop, hf, ht, ih, deleteIds_cons, List.filter_cons, hok]
      | false =>
        have hok : (FetchOutcome.resp t).isOk = false := ht
        simp [syncLoop, hf, ht, hnot45, ih, List.filter_cons, hok]

theorem syncLoop_early_ne_nil (f : SyncRecord → FetchOutcome) :
    ∀ (reqs db : List SyncRecord), List.Sublist reqs db → (db.map SyncRecord.id).Nodup →
      (syncLoop f reqs db).early = true → (syncLoop f reqs db).db ≠ []
  | [], db, _, _, h => by simp [syncLoop] at h
  | req :: rest, db, hsub, hnd, h => by
    cases hf : f req with
    | netErr =>
      have hmem : req ∈ db := hsub.subset (by simp)
      have hdb : (syncLoop f (req :: rest) db).db = db := by simp [syncLoop, hf]
      rw [hdb]
      exact List.ne_nil_of_mem hmem
    | resp s =>
      cases hs : respOk s with
      | true =>
        have hidnd : ((req :: rest).map SyncRecord.id).Nodup :=
          (hsub.map SyncRecord.id).nodup hnd
        have hrest_ne : ∀ x ∈ rest, neId req.id x = true := by
          intro x hx
          simp only [neId, decide_eq_true_eq]
          intro hcontra
          have hne := (List.pairwise_cons.mp hidnd).1 x.id (List.mem_map_of_mem _ hx)
          exact hne hcontra.symm
        have hsub2 : List.Sublist rest (db.filter (neId req.id)) := by
          have h1 := ((List.sublist_cons_self req rest).trans hsub).filter (neId req.id)
          rwa [List.filter_eq_self.mpr hrest_ne] at h1
        have hnd2 : ((db.filter (neId req.id)).map SyncRecord.id).Nodup :=
          ((List.filter_sublist db).map SyncRecord.id).nodup hnd
        have heq : syncLoop f (req :: rest) db =
            ⟨(syncLoop f rest (db.filter (neId req.id))).db,
             req :: (syncLoop f rest (db.filter (neId req.id))).sent,
             (syncLoop f rest (db.filter (neId req.id))).early⟩ := by
          simp [syncLoop, hf, hs]
        rw [heq] at h ⊢
        exact syncLoop_early_ne_nil f rest (db.filter (neId req.id)) hsub2 hnd2 h
      | false =>
        by_cases h45 : 400 ≤ s ∧ s < 500
        · have heq : syncLoop f (req :: rest) db = ⟨db, [req], false⟩ := by
            simp [syncLoop, hf, hs, h45]
          rw [heq] at h
          simp at h
        · have heq : syncLoop f (req :: rest) db =
              ⟨(syncLoop f rest db).db, req :: (syncLoop f rest db).sent,
               (syncLoop f rest db).early⟩ := by
            simp [syncLoop, hf, hs, h45]
          rw [heq] at h ⊢
          exact syncLoop_early_ne_nil f rest db
            ((List.sublist_cons_self req rest).trans hsub) hnd h

instance wfDec : ∀ db : List SyncRecord, Decidable (Wf db) := fun db => by
  unfold Wf; infer_instance

/-- Sample queued mutations for concrete witnesses: ids in enqueue order,
timestamps non-decreasing. -/
def sampleM1 : SyncRecord :=
  ⟨1, "/api/parts", "POST", .obj [("sku", .str "X1"), ("name", .str "Filter")],
   [("Content-Type", "application/json")], 100⟩

def sampleM2 : SyncRecord :=
  ⟨2, "/api/parts", "POST", .obj [("sku", .str "X2")],
   [("Content-Type", "application/json")], 101⟩

def sampleM3 : SyncRecord :=
  ⟨3, "/api/parts/42", "PUT", .obj [("name", .str "B")], [], 102⟩

/-- C1: replaying a well-formed queue (mutations enqueued in order
m1..mN) against a server that answers every request with 2xx issues the
requests in exactly enqueue order, leaves the queue empty, and reports
completion. -/
theorem replay_in_order_empties_queue (f : SyncRecord → FetchOutcome)
    (q : List SyncRecord) (hwf : Wf q) (hok : ∀ r ∈ q, (f r).isOk = true) :
    processSyncQueue f q = ⟨[], q, true⟩ := by
  have hsort := hwf.sorted
  have hloop := syncLoop_all_ok f q q hok
  simp [processSyncQueue, hsort, hloop, deleteIds_self]

/-- Witness for C1: a concrete two-element queue drained by an
all-accepting server. -/
theorem replay_in_order_empties_queue_witness :
    processSyncQueue (fun _ => FetchOutcome.resp 200) [sampleM1, sampleM2] =
      ⟨[], [sampleM1, sampleM2], true⟩ :=
  replay_in_order_empties_queue _ _ (by decide) (by decide)

/-- C2 (code bug): with queue [sampleM1, sampleM2] and the server
answering 500 to the first mutation and 200 to the second, the replay
pass still sends the second request (and deletes it) although the first
mutation neither succeeded nor stopped the drain — only 4xx statuses
break the loop, contradicting the comment in `sw.js` that a 4xx/5xx
response stops the sync. -/
theorem replay_sends_next_despite_5xx :
    processSyncQueue (fun r => if r.id = 1 then .resp 500 else .resp 200)
      [sampleM1, sampleM2] = ⟨[sampleM1], [sampleM1, sampleM2], false⟩ := by
  rfl

/-- C3: if m1..m(K-1) succeed with 2xx and mK is rejected with a 4xx,
the pass removes exactly m1..m(K-1), keeps mK..mN queued, sends no
request beyond mK, and does not report completion. -/
theorem replay_halts_on_4xx (f : SyncRecord → FetchOutcome)
    (pre : List SyncRecord) (mK : SyncRecord) (post : List SyncRecord) (s : Nat)
    (hwf : Wf (pre ++ mK :: post))
    (hpre : ∀ r ∈ pre, (f r).isOk = true)
    (hmK : f mK = .resp s) (h400 : 400 ≤ s) (h500 : s < 500) :
    processSyncQueue f (pre ++ mK :: post) = ⟨mK :: post, pre ++ [mK], false⟩ := by
  have hsort := hwf.sorted
  have hloop := syncLoop_break_4xx f mK s hmK h400 h500 pre post (pre ++ mK :: post) hpre
  have hdel : deleteIds (pre ++ mK :: post) pre =
      pre.filter (fun x => decide (∀ r ∈ pre, x.id ≠ r.id)) ++ mK :: post :=
    deleteIds_append_of_wf pre (mK :: post) pre hwf (fun r hr => hr)
  have hprefilter : pre.filter (fun x => decide (∀ r ∈ pre, x.id ≠ r.id)) = [] := by
    refine List.filter_eq_nil_iff.mpr (fun x hx => ?_)
    simp only [decide_eq_true_eq]
    intro hall
    exact hall x hx rfl
  simp [processSyncQueue, hsort, hloop, hdel, hprefilter]

/-- Witness for C3: the first mutation succeeds, the second gets a 404;
the third is never fetched and stays queued together with the second. -/
theorem replay_halts_on_4xx_witness :
    processSyncQueue (fun r => if r.id = 1 then .resp 200 else .resp 404)
      [sampleM1, sampleM2, sampleM3] =
      ⟨[sampleM2, sampleM3], [sampleM1, sampleM2], false⟩ :=
  replay_halts_on_4xx _ [sampleM1] sampleM2 [sampleM3] 404
    (by decide) (by decide) rfl (by decide) (by decide)

/-- C4: if the transport throws for mK (after m1..m(K-1) each got some
response that was not a 4xx), no request after mK is sent, mK and
everything behind it stays queued, and no completion is reported. -/
theorem replay_halts_on_network_error (f : SyncRecord → FetchOutcome)
    (pre : List SyncRecord) (mK : SyncRecord) (post : List SyncRecord)
    (hwf : Wf (pre ++ mK :: post))
    (hpre : ∀ r ∈ pre, (f r).proceeds = true)
    (hmK : f mK = .netErr) :
    (processSyncQueue f (pre ++ mK :: post)).sent = pre ++ [mK] ∧
    List.IsSuffix (mK :: post) (processSyncQueue f (pre ++ mK :: post)).queue ∧
    (processSyncQueue f (pre ++ mK :: post)).synced = false := by
  have hsort := hwf.sorted
  have hloop := syncLoop_stop_netErr f mK hmK pre post (pre ++ mK :: post) hpre
  have hdel := deleteIds_append_of_wf pre (mK :: post) (pre.filter (fun r => (f r).isOk)) hwf
    (fun r hr => List.mem_of_mem_filter hr)
  refine ⟨?_, ?_, ?_⟩
  · simp [processSyncQueue, hsort, hloop]
  · simp only [processSyncQueue, hsort, hloop, hdel]
    exact ⟨_, rfl⟩
  · simp [processSyncQueue, hsort, hloop]

/-- Witness for C4: the first mutation succeeds, the transport throws on
the second; the second and third remain queued and the third is never
fetched. -/
theorem replay_halts_on_network_error_witness :
    (processSyncQueue (fun r => if r.id = 1 then .resp 200 else .netErr)
      [sampleM1, sampleM2, sampleM3]).sent = [sampleM1] ++ [sampleM2] ∧
    List.IsSuffix (sampleM2 :: [sampleM3])
      (processSyncQueue (fun r => if r.id = 1 then .resp 200 else .netErr)
        [sampleM1, sampleM2, sampleM3]).queue ∧
    (processSyncQueue (fun r => if r.id = 1 then .resp 200 else .netErr)
      [sampleM1, sampleM2, sampleM3]).synced = false :=
  replay_halts_on_network_error _ [sampleM1] sampleM2 [sampleM3]
    (by decide) (by decide) rfl

/-- C8: for a well-formed queue and any response pattern, the
`SYNC_COMPLETE` broadcast happens iff the queue is empty when the pass
ends; a pass over an empty queue fetches nothing and immediately
broadcasts (and, being a pure function of the state, re-running it gives
the same outcome). -/
theorem sync_complete_iff_queue_empty (f : SyncRecord → FetchOutcome)
    (q : List SyncRecord) (hwf : Wf q) :
    ((processSyncQueue f q).synced = true ↔ (processSyncQueue f q).queue = []) ∧
    processSyncQueue f [] = ⟨[], [], true⟩ := by
  have hsort := hwf.sorted
  have hne := syncLoop_early_ne_nil f q q (List.Sublist.refl q) hwf.nodup_ids
  constructor
  · constructor
    · intro hs
      simp only [processSyncQueue, hsort] at hs ⊢
      simp only [Bool.and_eq_true, List.isEmpty_iff] at hs
      exact hs.2
    · intro hq
      simp only [processSyncQueue, hsort] at hq ⊢
      have hearly : (syncLoop f q q).early = false := by
        cases hE : (syncLoop f q q).early with
        | false => rfl
        | true => exact absurd hq (hne hE)
      simp [hearly, hq]
  · rfl

/-- Witness for C8: instantiated at a network-failing server; the empty
queue still broadcasts immediately with no request sent. -/
theorem sync_complete_iff_queue_empty_witness :
    processSyncQueue (fun _ => FetchOutcome.netErr) [] = ⟨[], [], true⟩ :=
  (sync_complete_iff_queue_empty (fun _ => FetchOutcome.netErr) [sampleM1] (by decide)).2

/-- Lookup in a JavaScript string-keyed map (object field access /
`keyval` store `get`): the value of the first matching key. -/
def objGet (fields : List (String × Json)) (key : String) : Option Json :=
  (fields.find? (fun p => p.1 == key)).map (fun p => p.2)

/-- JavaScript object spread update `{...fields, key: v}` (also the
`keyval` store `put`): replace the value in place when present, append
otherwise. -/
def objSet (fields : List (String × Json)) (key : String) (v : Json) :
    List (String × Json) :=
  if fields.any (fun p => p.1 == key) then
    fields.map (fun p => if p.1 == key then (key, v) else p)
  else fields ++ [(key, v)]

/-- Rest-destructuring `const {key, ...payload}`: all fields except `key`. -/
def objDelete (fields : List (String × Json)) (key : String) :
    List (String × Json) :=
  fields.filter (fun p => p.1 != key)

/-- The `cmm-db` IndexedDB database of `db.ts`: the `keyval` cache store,
the `sync-queue` store with its auto-increment key counter, and a flag
recording whether `openDB` succeeded — when it is false, the promise
shared by `getDb` is rejected and every dependent operation rejects. -/
structure Db : Type where
  dbOk : Bool
  keyval : List (String × Json)
  syncQueue : List SyncRecord
  nextId : Nat

/-- Rejection message used when the shared `getDb` promise is rejected. -/
def dbFailMsg : String := "openDB failed"

/-- `db.ts` `getCachedData`: `db.get('keyval', key)`; a missing key
resolves with `undefined` (`none`); a failed store open rejects. -/
def getCachedData (db : Db) (key : String) : Except String (Option Json) :=
  if db.dbOk then .ok (objGet db.keyval key) else .error dbFailMsg

/-- `db.ts` `setCachedData`: `db.put('keyval', data, key)`. -/
def setCachedData (db : Db) (key : String) (v : Json) : Except String Db :=
  if db.dbOk then .ok { db with keyval := objSet db.keyval key v } else .error dbFailMsg

/-- `db.ts` `queueRequest`: `db.add('sync-queue', {...request, timestamp:
Date.now()})` under the next auto-increment primary key; `now` stands
for `Date.now()`. -/
def queueRequest (db : Db) (now : Nat) (url method : String) (body : Json)
    (headers : List (String × String)) : Except String Db :=
  if db.dbOk then
    .ok { db with
          syncQueue := db.syncQueue ++ [⟨db.nextId, url, method, body, headers, now⟩],
          nextId := db.nextId + 1 }
  else .error dbFailMsg

/-- The `catch` block of `createCachedApiCall` in `api.ts`, entered with
the caught error `e`: when `navigator.onLine` is false, try
`getCachedData` and return a truthy cached value (`if (cachedData)
return cachedData`), otherwise rethrow `e`; a store failure during the
cache read rejects with that failure instead. -/
def cacheFallback (db : Db) (apiKey : String) (online : Bool) (e : String) :
    Except String Json × Db :=
  if online then (.error e, db)
  else
    match getCachedData db apiKey with
    | .error e2 => (.error e2, db)
    | .ok none => (.error e, db)
    | .ok (some v) => if v.truthy then (.ok v, db) else (.error e, db)

/-- `api.ts` `createCachedApiCall`, applied to one invocation.
`fetchResult` is the outcome of `fetcher()` and `online` is
`navigator.onLine` at failure time. On fetch success the result is
persisted under `apiKey` and returned; a store failure while persisting
is caught by the same `catch` block as a failed fetch. -/
def createCachedApiCall (apiKey : String) (fetchResult : Except String Json)
    (online : Bool) (db : Db) : Except String Json × Db :=
  match fetchResult with
  | .error e => cacheFallback db apiKey online e
  | .ok data =>
    match setCachedData db apiKey data with
    | .ok db2 => (.ok data, db2)
    | .error e => cacheFallback db apiKey online e

/-- `api.ts` `createCachedApiCallWithArg`: identical logic, with the
cache key derived from the call argument. -/
def createCachedApiCallWithArg (apiKeyFn : String → String) (arg : String)
    (fetchResult : Except String Json) (online : Bool) (db : Db) :
    Except String Json × Db :=
  createCachedApiCall (apiKeyFn arg) fetchResult online db

/-- `api.ts` `getAllDataForUser`: the full-dataset read, cached under the
fixed key `allData`. -/
def getAllDataForUser (fetchResult : Except String Json) (online : Bool) (db : Db) :
    Except String Json × Db :=
  createCachedApiCall "allData" fetchResult online db

/-- `api.ts` `getMachineDetails`: per-machine read, cached under
`machineDetails_<machineId>`. -/
def getMachineDetails (machineId : String) (fetchResult : Except String Json)
    (online : Bool) (db : Db) : Except String Json × Db :=
  createCachedApiCallWithArg (fun mid => "machineDetails_" ++ mid) machineId
    fetchResult online db

/-- `api.ts` `getAllParts`: parts list, cached under `allParts`. -/
def getAllParts (fetchResult : Except String Json) (online : Bool) (db : Db) :
    Except String Json × Db :=
  createCachedApiCall "allParts" fetchResult online db

/-- `api.ts` `getAllUsers`: user list, cached under `allUsers`. -/
def getAllUsers (fetchResult : Except String Json) (online : Bool) (db : Db) :
    Except String Json × Db :=
  createCachedApiCall "allUsers" fetchResult online db

/-- Outcome of a `fetch` issued by the online branch of `handleMutation`:
status plus parsed JSON body, or a thrown network error. -/
inductive HttpOutcome : Type where
  | resp (status : Nat) (body : Json) : HttpOutcome
  | netErr (msg : String) : HttpOutcome

/-- Error text thrown by `api.ts` `handleResponse` for a non-ok response
(`error.message || 'An unknown error occurred'`; body-parse failure and
`statusText` fallbacks are collapsed into the default message, which no
claim inspects). -/
def errMessage (body : Json) : String :=
  match body with
  | .obj fields =>
    match objGet fields "message" with
    | some (.str s) => if s ≠ "" then s else "An unknown error occurred"
    | _ => "An unknown error occurred"
  | _ => "An unknown error occurred"

/-- `api.ts` `handleResponse`: ok responses resolve with the parsed
body, others throw. -/
def handleResponse (status : Nat) (body : Json) : Except String Json :=
  if respOk status then .ok body else .error (errMessage body)

/-- Observable outcome of `handleMutation`: the settled promise, the
store afterwards, whether `triggerSync()` was called to request a
background replay, and whether a network `fetch` was issued. -/
structure MutationOut : Type where
  result : Except String Json
  db : Db
  requestedSync : Bool
  networkSent : Bool

/-- `api.ts` `handleMutation`. `online` is `navigator.onLine`, `now` is
`Date.now()` (the two reads, for the queue timestamp and the fabricated
id, are modelled as one instant), `headers` is `getHeaders()`, and
`fetchOut` is the network outcome used in the online branch. Offline:
queue the mutation (a rejected `queueRequest` rejects the whole call and
nothing else happens), call `triggerSync()`, and return the optimistic
object `{...body, id: body.id || offline_<now>}` without touching the
network. -/
def handleMutation (online : Bool) (now : Nat) (headers : List (String × String))
    (fetchOut : HttpOutcome) (db : Db) (url method : String)
    (body : List (String × Json)) : MutationOut :=
  if online then
    match fetchOut with
    | .netErr m => ⟨.error m, db, false, true⟩
    | .resp status rbody => ⟨handleResponse status rbody, db, false, true⟩
  else
    match queueRequest db now url method (.obj body) headers with
    | .error e => ⟨.error e, db, false, false⟩
    | .ok db2 =>
      let idVal : Json :=
        match objGet body "id" with
        | some v => if v.truthy then v else .str ("offline_" ++ toString now)
        | none => .str ("offline_" ++ toString now)
      ⟨.ok (.obj (objSet body "id" idVal)), db2, true, false⟩

/-- `api.ts` `API_BASE_URL`. -/
def apiBaseUrl : String := "/api"

/-- `api.ts` `addMaintenanceRecord`: POST to `/api/maintenanceRecords`. -/
def addMaintenanceRecord (online : Bool) (now : Nat) (headers : List (String × String))
    (fetchOut : HttpOutcome) (db : Db) (record : List (String × Json)) : MutationOut :=
  handleMutation online now headers fetchOut db
    (apiBaseUrl ++ "/maintenanceRecords") "POST" record

/-- `api.ts` `addEntity`: POST to `/api/<entityType>`. -/
def addEntity (online : Bool) (now : Nat) (headers : List (String × String))
    (fetchOut : HttpOutcome) (db : Db) (entityType : String)
    (entityData : List (String × Json)) : MutationOut :=
  handleMutation online now headers fetchOut db
    (apiBaseUrl ++ "/" ++ entityType) "POST" entityData

/-- JavaScript template-literal rendering of the destructured `id`
(string ids render as themselves; `undefined` when the field is absent;
array rendering is approximated, no claim uses non-string ids). -/
def jsShow : Option Json → String
  | some (.str s) => s
  | some (.num n) => toString n
  | some (.bool b) => cond b "true" "false"
  | some .null => "null"
  | some (.arr _) => ""
  | some (.obj _) => "[object Object]"
  | none => "undefined"

/-- `api.ts` `updateEntity`: destructures `const {id, ...payload}` and
issues a PUT to `/api/<entityType>/<id>` with the id-stripped payload. -/
def updateEntity (online : Bool) (now : Nat) (headers : List (String × String))
    (fetchOut : HttpOutcome) (db : Db) (entityType : String)
    (updatedEntityData : List (String × Json)) : MutationOut :=
  handleMutation online now headers fetchOut db
    (apiBaseUrl ++ "/" ++ entityType ++ "/" ++ jsShow (objGet updatedEntityData "id"))
    "PUT" (objDelete updatedEntityData "id")

/-- `api.ts` `deleteEntity`: DELETE to `/api/<entityType>/<id>` with an
empty object body. -/
def deleteEntity (online : Bool) (now : Nat) (headers : List (String × String))
    (fetchOut : HttpOutcome) (db : Db) (entityType : String) (id : String) :
    MutationOut :=
  handleMutation online now headers fetchOut db
    (apiBaseUrl ++ "/" ++ entityType ++ "/" ++ id) "DELETE" []

theorem objGet_objDelete (fields : List (String × Json)) (key : String) :
    objGet (objDelete fields key) key = none := by
  have h : (objDelete fields key).find? (fun p => p.1 == key) = none := by
    rw [List.find?_eq_none]
    intro x hx
    have hkeep := (List.mem_filter.mp hx).2
    simpa [bne] using hkeep
  simp [objGet, h]

/-- A store whose `openDB` succeeded, with an empty cache and queue. -/
def freshDb : Db := ⟨true, [], [], 1⟩

/-- A store whose `openDB` failed: every dependent operation rejects. -/
def brokenDb : Db := ⟨false, [], [], 1⟩

/-- A working store whose `allData` cache entry holds JSON `null`. -/
def nullCachedDb : Db := ⟨true, [("allData", Json.null)], [], 1⟩

/-- C5 counterexample: a cached value exists for `allData` (JSON `null`,
as stored after a 200 response with body `null`), yet a failed fetch
while offline propagates the fetch error instead of returning the cached
value — `if (cachedData)` tests truthiness, not presence, so the claim
as stated fails. -/
theorem cached_read_null_value_not_served :
    getCachedData nullCachedDb "allData" = .ok (some Json.null) ∧
    (getAllDataForUser (.error "network unreachable") false nullCachedDb).1 =
      .error "network unreachable" :=
  ⟨rfl, rfl⟩

/-- C5 (amended): for every cached read operation (and any cache key),
with a working store: a successful fetch persists the result under the
operation's key and returns it; a fetch failure while online propagates
the error; a fetch failure while offline returns the cached value when
one exists and is truthy, and otherwise (no cached value, or a falsy
cached value such as JSON `null`) propagates the original fetch error.
The four named read operations are instances at their respective keys. -/
theorem cached_read_path_behavior (apiKey machineId : String)
    (fetchResult : Except String Json) (online : Bool) (db : Db)
    (hdb : db.dbOk = true) :
    (∀ data, fetchResult = .ok data →
      createCachedApiCall apiKey fetchResult online db =
        (.ok data, { db with keyval := objSet db.keyval apiKey data })) ∧
    (∀ e, fetchResult = .error e → online = true →
      createCachedApiCall apiKey fetchResult online db = (.error e, db)) ∧
    (∀ e v, fetchResult = .error e → online = false →
      objGet db.keyval apiKey = some v → v.truthy = true →
      createCachedApiCall apiKey fetchResult online db = (.ok v, db)) ∧
    (∀ e, fetchResult = .error e → online = false →
      objGet db.keyval apiKey = none →
      createCachedApiCall apiKey fetchResult online db = (.error e, db)) ∧
    (∀ e v, fetchResult = .error e → online = false →
      objGet db.keyval apiKey = some v → v.truthy = false →
      createCachedApiCall apiKey fetchResult online db = (.error e, db)) ∧
    getAllDataForUser fetchResult online db =
      createCachedApiCall "allData" fetchResult online db ∧
    getMachineDetails machineId fetchResult online db =
      createCachedApiCall ("machineDetails_" ++ machineId) fetchResult online db ∧
    getAllParts fetchResult online db =
      createCachedApiCall "allParts" fetchResult online db ∧
    getAllUsers fetchResult online db =
      createCachedApiCall "allUsers" fetchResult online db := by
  refine ⟨fun data hd => ?_, fun e hd hon => ?_, fun e v hd hon hv htr => ?_,
    fun e hd hon hnone => ?_, fun e v hd hon hv htr => ?_, rfl, rfl, rfl, rfl⟩
  · subst hd
    simp [createCachedApiCall, setCachedData, hdb]
  · subst hd; subst hon
    simp [createCachedApiCall, cacheFallback]
  · subst hd; subst hon
    simp [createCachedApiCall, cacheFallback, getCachedData, hdb, hv, htr]
  · subst hd; subst hon
    simp [createCachedApiCall, cacheFallback, getCachedData, hdb, hnone]
  · subst hd; subst hon
    simp [createCachedApiCall, cacheFallback, getCachedData, hdb, hv, htr]

/-- Witness for the amended C5: a successful fetch is persisted under
`allData` and returned. -/
theorem cached_read_path_behavior_witness :
    createCachedApiCall "allData" (.ok (Json.str "payload")) true freshDb =
      (.ok (Json.str "payload"),
       { freshDb with keyval := objSet freshDb.keyval "allData" (Json.str "payload") }) :=
  (cached_read_path_behavior "allData" "m1" (.ok (Json.str "payload")) true freshDb rfl).1
    (Json.str "payload") rfl

/-- C7: a write issued while offline durably enqueues the mutation
(resource path, method, payload, current auth headers) before the call
resolves, requests a background replay (`triggerSync`), touches no
network, and returns an optimistic result whose fabricated id is
`offline_<Date.now()>` whenever the payload carries no id. -/
theorem offline_mutation_enqueues_and_returns_offline_id
    (now : Nat) (headers : List (String × String)) (fetchOut : HttpOutcome)
    (db : Db) (url method : String) (body : List (String × Json))
    (hdb : db.dbOk = true) (hid : objGet body "id" = none) :
    handleMutation false now headers fetchOut db url method body =
      ⟨.ok (.obj (objSet body "id" (.str ("offline_" ++ toString now)))),
       { db with
         syncQueue := db.syncQueue ++ [⟨db.nextId, url, method, .obj body, headers, now⟩],
         nextId := db.nextId + 1 },
       true, false⟩ := by
  simp [handleMutation, queueRequest, hdb, hid]

/-- Witness for C7: queuing a parts creation offline. -/
theorem offline_mutation_witness :
    handleMutation false 5 [("Authorization", "Bearer t")] (.netErr "offline") freshDb
      "/api/parts" "POST" [("sku", Json.str "X1")] =
      ⟨.ok (.obj (objSet [("sku", Json.str "X1")] "id" (.str ("offline_" ++ toString 5)))),
       { freshDb with
         syncQueue := freshDb.syncQueue ++
           [⟨freshDb.nextId, "/api/parts", "POST", .obj [("sku", Json.str "X1")],
             [("Authorization", "Bearer t")], 5⟩],
         nextId := freshDb.nextId + 1 },
       true, false⟩ :=
  offline_mutation_enqueues_and_returns_offline_id 5 [("Authorization", "Bearer t")]
    (.netErr "offline") freshDb "/api/parts" "POST" [("sku", Json.str "X1")] rfl rfl

/-- C9: a rejected enqueue rejects the whole offline write with that
error — no optimistic result, no sync request, no store change; and a
failed store open surfaces as an error from every dependent cache or
queue operation. -/
theorem store_failure_propagates
    (now : Nat) (headers : List (String × String)) (fetchOut : HttpOutcome)
    (db : Db) (url method key : String) (body : List (String × Json))
    (v : Json) (e : String) :
    (queueRequest db now url method (.obj body) headers = .error e →
      handleMutation false now headers fetchOut db url method body =
        ⟨.error e, db, false, false⟩) ∧
    (db.dbOk = false →
      getCachedData db key = .error dbFailMsg ∧
      setCachedData db key v = .error dbFailMsg ∧
      queueRequest db now url method (.obj body) headers = .error dbFailMsg) := by
  constructor
  · intro hq
    simp [handleMutation, hq]
  · intro hdb
    simp [getCachedData, setCachedData, queueRequest, hdb]

/-- Witness for C9: with a failed store open, an offline write rejects
with the store error and returns no optimistic result. -/
theorem store_failure_propagates_witness :
    handleMutation false 5 [] (.netErr "x") brokenDb "/api/parts" "POST"
      [("sku", Json.str "X1")] = ⟨.error dbFailMsg, brokenDb, false, false⟩ :=
  (store_failure_propagates 5 [] (.netErr "x") brokenDb "/api/parts" "POST" "allData"
    [("sku", Json.str "X1")] Json.null dbFailMsg).1 rfl

/-- C10: offline `updateEntity` strips the id from the payload before
queuing and `deleteEntity` queues an empty body, so both return an
optimistic object whose id is the fabricated `offline_<Date.now()>`
rather than the id of the entity being updated or deleted. -/
theorem offline_update_delete_use_fabricated_id
    (now : Nat) (headers : List (String × String)) (fetchOut : HttpOutcome)
    (db : Db) (entityType : String) (data : List (String × Json)) (id : String)
    (hdb : db.dbOk = true) :
    (updateEntity false now headers fetchOut db entityType data).result =
      .ok (.obj (objSet (objDelete data "id") "id" (.str ("offline_" ++ toString now)))) ∧
    (updateEntity false now headers fetchOut db entityType data).db.syncQueue =
      db.syncQueue ++ [⟨db.nextId,
        apiBaseUrl ++ "/" ++ entityType ++ "/" ++ jsShow (objGet data "id"), "PUT",
        .obj (objDelete data "id"), headers, now⟩] ∧
    (deleteEntity false now headers fetchOut db entityType id).result =
      .ok (.obj [("id", .str ("offline_" ++ toString now))]) ∧
    (deleteEntity false now headers fetchOut db entityType id).db.syncQueue =
      db.syncQueue ++ [⟨db.nextId, apiBaseUrl ++ "/" ++ entityType ++ "/" ++ id,
        "DELETE", .obj [], headers, now⟩] := by
  have h1 : objGet (objDelete data "id") "id" = none := objGet_objDelete data "id"
  refine ⟨?_, ?_, ?_, ?_⟩
  · simp [updateEntity, handleMutation, queueRequest, hdb, h1]
  · simp [updateEntity, handleMutation, queueRequest, hdb, h1]
  · simp [deleteEntity, handleMutation, queueRequest, hdb, objGet, objSet]
  · simp [deleteEntity, handleMutation, queueRequest, hdb]

/-- Witness for C10: updating machine 42 offline returns an object whose
id is the fabricated offline id, not 42. -/
theorem offline_update_delete_use_fabricated_id_witness :
    (updateEntity false 7 [] (.netErr "x") freshDb "machines"
      [("id", Json.str "42"), ("name", Json.str "A")]).result =
      .ok (.obj (objSet (objDelete [("id", Json.str "42"), ("name", Json.str "A")] "id")
        "id" (.str ("offline_" ++ toString 7)))) :=
  (offline_update_delete_use_fabricated_id 7 [] (.netErr "x") freshDb "machines"
    [("id", Json.str "42"), ("name", Json.str "A")] "42" rfl).1

/-- `types.ts` `MachineStatus`. -/
inductive MachineStatus : Type where
  | ok : MachineStatus
  | warning : MachineStatus
  | error : MachineStatus
deriving DecidableEq

/-- `types.ts` `Region`. -/
structure Region : Type where
  id : String
  name : String
deriving DecidableEq

/-- `types.ts` `Point`. -/
structure Point : Type where
  id : String
  name : String
  address : String
  regionId : String
deriving DecidableEq

/-- `types.ts` `Machine`. -/
structure Machine : Type where
  id : String
  name : String
  serialNumber : String
  regionId : String
  pointId : Option String
  status : MachineStatus
deriving DecidableEq

/-- `types.ts` `Role`. -/
inductive Role : Type where
  | admin : Role
  | technician : Role
deriving DecidableEq

/-- `types.ts` `User` (the optional embedded `region` conflates
`undefined` and `null` into `none`; no claim inspects it). -/
structure User : Type where
  id : String
  name : String
  login : String
  password : Option String
  role : Role
  regionId : Option String
  region : Option Region
deriving DecidableEq

/-- `types.ts` `UsedPart`. -/
structure UsedPart : Type where
  partId : String
  quantity : Nat
deriving DecidableEq

/-- `types.ts` `MaintenanceRecord`. -/
structure MaintenanceRecord : Type where
  id : String
  machineId : String
  userId : String
  timestamp : String
  description : String
  usedParts : List UsedPart
deriving DecidableEq

/-- `types.ts` `Part`. -/
structure Part : Type where
  id : String
  name : String
  sku : String
deriving DecidableEq

/-- `types.ts` `AllData`: the full AggregateDataset. -/
structure AllData : Type where
  regions : List Region
  points : List Point
  machines : List Machine
  users : List User
  maintenanceRecords : List MaintenanceRecord
  parts : List Part
deriving DecidableEq

/-- Payload of `GET /regions/{id}/sync` as consumed by `syncRegionData`. -/
structure RegionSyncPayload : Type where
  points : List Point
  machines : List Machine
  maintenanceRecords : List MaintenanceRecord
deriving DecidableEq

/-- Steps 4–6 of `api.ts` `syncRegionData`: compute the machine ids that
belonged to the target region in the *old* cached snapshot, drop the old
region slice (points/machines by region id, maintenance records by
membership of their machine id in that old set), and append the fresh
payload; all other fields of the dataset are spread through unchanged.
`new Set(...)`/`has` is modelled by `List.contains`. -/
def mergeRegionData (regionId : String) (allData : AllData)
    (newRegionData : RegionSyncPayload) : AllData :=
  let oldMachineIdsInRegion :=
    (allData.machines.filter (fun m => m.regionId == regionId)).map (fun m => m.id)
  { allData with
    points := allData.points.filter (fun p => p.regionId != regionId) ++
      newRegionData.points,
    machines := allData.machines.filter (fun m => m.regionId != regionId) ++
      newRegionData.machines,
    maintenanceRecords := allData.maintenanceRecords.filter
        (fun r => !(oldMachineIdsInRegion.contains r.machineId)) ++
      newRegionData.maintenanceRecords }

/-- `api.ts` `syncRegionData` after the network fetch and per-machine
detail pre-caching (steps 1–2, represented by the `newRegionData`
parameter): read the cached dataset (`getCachedData<AllData>('allData')`,
represented as the typed `cachedAllData`); with no cached dataset the
function falls back to a full re-fetch (`none` here), otherwise it
merges, re-caches and returns the merged dataset. -/
def syncRegionData (regionId : String) (newRegionData : RegionSyncPayload)
    (cachedAllData : Option AllData) : Option AllData :=
  cachedAllData.map (fun allData => mergeRegionData regionId allData newRegionData)

theorem mergeRegionData_points (regionId : String) (allData : AllData)
    (fresh : RegionSyncPayload) :
    (mergeRegionData regionId allData fresh).points =
      allData.points.filter (fun p => p.regionId != regionId) ++ fresh.points := rfl

theorem mergeRegionData_machines (regionId : String) (allData : AllData)
    (fresh : RegionSyncPayload) :
    (mergeRegionData regionId allData fresh).machines =
      allData.machines.filter (fun m => m.regionId != regionId) ++ fresh.machines := rfl

theorem mergeRegionData_records (regionId : String) (allData : AllData)
    (fresh : RegionSyncPayload) :
    (mergeRegionData regionId allData fresh).maintenanceRecords =
      allData.maintenanceRecords.filter (fun r =>
        !(((allData.machines.filter (fun m => m.regionId == regionId)).map
          (fun m => m.id)).contains r.machineId)) ++ fresh.maintenanceRecords := rfl

/-- An old A-region machine, deleted on the server. -/
def machineA : Machine := ⟨"m1", "Machine 1", "SN1", "A", none, .ok⟩

/-- A maintenance record referencing that machine. -/
def recordA : MaintenanceRecord := ⟨"r1", "m1", "u1", "2024-01-01", "service", []⟩

/-- Cached dataset holding only that machine and record. -/
def oldDataA : AllData := ⟨[], [], [machineA], [], [recordA], []⟩

/-- Fresh region payload: the machine is gone, but the server still
returns the record referencing it. -/
def freshPayloadA : RegionSyncPayload := ⟨[], [], [recordA]⟩

/-- C6 counterexample: `recordA` references a machine that was in region
A in the old snapshot and is absent from the freshly fetched machines,
yet it appears in the merged result, because the fresh maintenance
records are appended unconditionally — so the claim as stated fails when
the fresh payload itself carries such a record. -/
theorem region_merge_record_counterexample :
    machineA.regionId = "A" ∧ machineA ∈ oldDataA.machines ∧
    freshPayloadA.machines = [] ∧ recordA.machineId = machineA.id ∧
    recordA ∈ (mergeRegionData "A" oldDataA freshPayloadA).maintenanceRecords := by
  decide

/-- C6 (amended): merging region `regionId` keeps every old point and
machine of other regions and every old record not referencing an
old-region machine; appends the fresh points, machines and records; and
a record referencing a machine that was in the target region in the old
snapshot and is absent from the fresh machines is absent from the merged
result, provided the fresh record list does not itself contain that
record. -/
theorem region_merge_isolation (regionId : String) (allData : AllData)
    (fresh : RegionSyncPayload) :
    (∀ p ∈ allData.points, p.regionId ≠ regionId →
      p ∈ (mergeRegionData regionId allData fresh).points) ∧
    (∀ m ∈ allData.machines, m.regionId ≠ regionId →
      m ∈ (mergeRegionData regionId allData fresh).machines) ∧
    (∀ r ∈ allData.maintenanceRecords,
      (∀ m ∈ allData.machines, m.regionId = regionId → r.machineId ≠ m.id) →
      r ∈ (mergeRegionData regionId allData fresh).maintenanceRecords) ∧
    List.IsSuffix fresh.points (mergeRegionData regionId allData fresh).points ∧
    List.IsSuffix fresh.machines (mergeRegionData regionId allData fresh).machines ∧
    List.IsSuffix fresh.maintenanceRecords
      (mergeRegionData regionId allData fresh).maintenanceRecords ∧
    (∀ r : MaintenanceRecord, ∀ m ∈ allData.machines, m.regionId = regionId →
      r.machineId = m.id → (∀ m2 ∈ fresh.machines, m2.id ≠ m.id) →
      r ∉ fresh.maintenanceRecords →
      r ∉ (mergeRegionData regionId allData fresh).maintenanceRecords) := by
  refine ⟨?_, ?_, ?_, ?_, ?_, ?_, ?_⟩
  · intro p hp hne
    rw [mergeRegionData_points]
    exact List.mem_append_left _ (List.mem_filter.mpr ⟨hp, by simpa [bne] using hne⟩)
  · intro m hm hne
    rw [mergeRegionData_machines]
    exact List.mem_append_left _ (List.mem_filter.mpr ⟨hm, by simpa [bne] using hne⟩)
  · intro r hr hno
    rw [mergeRegionData_records]
    refine List.mem_append_left _ (List.mem_filter.mpr ⟨hr, ?_⟩)
    simp only [Bool.not_eq_true', List.elem_eq_mem, decide_eq_false_iff_not]
    simp only [List.mem_map, List.mem_filter, beq_iff_eq]
    rintro ⟨m, ⟨hmem, hreg⟩, hid⟩
    exact hno m hmem hreg hid.symm
  · rw [mergeRegionData_points]; exact ⟨_, rfl⟩
  · rw [mergeRegionData_machines]; exact ⟨_, rfl⟩
  · rw [mergeRegionData_records]; exact ⟨_, rfl⟩
  · intro r m hm hreg hid hfreshm hfreshr hmem
    rw [mergeRegionData_records] at hmem
    rcases List.mem_append.mp hmem with hold | hnew
    · have hpred := (List.mem_filter.mp hold).2
      simp only [Bool.not_eq_true', List.elem_eq_mem, decide_eq_false_iff_not] at hpred
      apply hpred
      simp only [List.mem_map, List.mem_filter, beq_iff_eq]
      exact ⟨m, ⟨hm, hreg⟩, hid.symm⟩
    · exact hfreshr hnew

/-- Witness for the amended C6: a point of region B survives a merge of
region A untouched. -/
theorem region_merge_isolation_witness :
    Point.mk "p1" "Point 1" "Addr" "B" ∈
      (mergeRegionData "A" ⟨[], [⟨"p1", "Point 1", "Addr", "B"⟩], [], [], [], []⟩
        ⟨[], [], []⟩).points :=
  (region_merge_isolation "A" ⟨[], [⟨"p1", "Point 1", "Addr", "B"⟩], [], [], [], []⟩
    ⟨[], [], []⟩).1 ⟨"p1", "Point 1", "Addr", "B"⟩ (by decide) (by decide)

/-- Supporting fact: enqueuing through `queueRequest` preserves queue
well-formedness — the auto-increment key exceeds every stored id and a
monotone `Date.now()` is at least every stored timestamp, so the
appended record extends the `Wf` order. -/
theorem queueRequest_preserves_wf (db : Db) (now : Nat) (url method : String)
    (body : Json) (headers : List (String × String)) (db2 : Db)
    (hwf : Wf db.syncQueue)
    (hid : ∀ r ∈ db.syncQueue, r.id < db.nextId)
    (hts : ∀ r ∈ db.syncQueue, r.timestamp ≤ now)
    (h : queueRequest db now url method body headers = .ok db2) :
    Wf db2.syncQueue := by
  cases hdb : db.dbOk with
  | false => simp [queueRequest, hdb] at h
  | true =>
    simp only [queueRequest, hdb, if_pos, Except.ok.injEq] at h
    have hq : db2.syncQueue =
        db.syncQueue ++ [⟨db.nextId, url, method, body, headers, now⟩] := by
      rw [← h]
    rw [hq]
    refine List.pairwise_append.mpr ⟨hwf, List.pairwise_singleton _ _, ?_⟩
    intro a ha b hb
    rw [List.mem_singleton] at hb
    subst hb
    exact ⟨hid a ha, hts a ha⟩
